import Mathlib

/-!
Shallow embedding of the free-draw stroke module: the `FreeDraw` class
(constructor, `addPosition`, `_computedSpeed`, `_computedLineWidth`) and the
free functions `moveFreeDraw`, `resizeFreeDraw`, `initRect`, `calculateRect`.

Modelling choices:
* JavaScript numbers are modelled by `ℚ` wherever the source only performs
  finite arithmetic (positions, times, width bounds, scale factors).
* The speed / line-width pipeline can produce Infinity and NaN (division by a
  zero time interval), so speeds and stored line widths are modelled by
  `JNum`: rationals extended with both infinities and a not-a-number value,
  with JavaScript semantics (every comparison involving NaN is false,
  0/0 = NaN, d/0 = Infinity for d > 0). Negative zero is not modelled; a zero
  is always the positive zero.
* In this module the rectangle fields `minX`/`minY` are only ever written as
  the sentinel `Infinity` or as a finite coordinate, and `maxX`/`maxY` as the
  sentinel `-Infinity` or a finite coordinate; they are modelled as
  `Option ℚ` with `none` standing for the respective sentinel.
* Helpers external to this module are passed as parameters: `getDistance`
  (Euclidean distance, from module `common`), the current wall-clock time
  (`Date.now()`), and the constant `RECT_MIN_SIZE` (from module `constants`).
  The string enumeration `RESIZE_TYPE` (module `constants`) is modelled by
  the inductive `ResizeType`; its extra constructor `OTHER` stands for any
  string that is none of the four corner members and selects the `default`
  branch of the `switch` in `resizeFreeDraw`.
-/

/-- JavaScript number values reachable in the speed / line-width pipeline:
not-a-number, the two infinities, or a finite value. -/
inductive JNum where
  | nan : JNum
  | ninf : JNum
  | fin : ℚ → JNum
  | pinf : JNum
  deriving DecidableEq, Repr

/-- JavaScript division of two finite numbers: 0/0 is NaN, d/0 is an infinity
carrying the sign of d (treating 0 as positive zero). -/
def jsDivQ (a b : ℚ) : JNum :=
  if b = 0 then
    if a = 0 then .nan else if 0 < a then .pinf else .ninf
  else .fin (a / b)

/-- JavaScript comparison a >= b with b finite: false when a is NaN. -/
def JNum.geQ : JNum → ℚ → Bool
  | .nan, _ => false
  | .ninf, _ => false
  | .pinf, _ => true
  | .fin a, b => decide (b ≤ a)

/-- JavaScript comparison a <= b with b finite: false when a is NaN. -/
def JNum.leQ : JNum → ℚ → Bool
  | .nan, _ => false
  | .ninf, _ => true
  | .pinf, _ => false
  | .fin a, b => decide (a ≤ b)

/-- JavaScript subtraction on extended numbers. -/
def JNum.sub : JNum → JNum → JNum
  | .nan, _ => .nan
  | _, .nan => .nan
  | .pinf, .pinf => .nan
  | .pinf, _ => .pinf
  | .ninf, .ninf => .nan
  | .ninf, _ => .ninf
  | .fin _, .pinf => .ninf
  | .fin _, .ninf => .pinf
  | .fin a, .fin b => .fin (a - b)

/-- JavaScript addition on extended numbers. -/
def JNum.add : JNum → JNum → JNum
  | .nan, _ => .nan
  | _, .nan => .nan
  | .pinf, .ninf => .nan
  | .ninf, .pinf => .nan
  | .pinf, _ => .pinf
  | _, .pinf => .pinf
  | .ninf, _ => .ninf
  | _, .ninf => .ninf
  | .fin a, .fin b => .fin (a + b)

/-- JavaScript multiplication on extended numbers: an infinity times zero is
NaN, otherwise signs combine. -/
def JNum.mul : JNum → JNum → JNum
  | .nan, _ => .nan
  | _, .nan => .nan
  | .pinf, .pinf => .pinf
  | .pinf, .ninf => .ninf
  | .ninf, .pinf => .ninf
  | .ninf, .ninf => .pinf
  | .pinf, .fin b => if b = 0 then .nan else if 0 < b then .pinf else .ninf
  | .fin a, .pinf => if a = 0 then .nan else if 0 < a then .pinf else .ninf
  | .ninf, .fin b => if b = 0 then .nan else if 0 < b then .ninf else .pinf
  | .fin a, .ninf => if a = 0 then .nan else if 0 < a then .ninf else .pinf
  | .fin a, .fin b => .fin (a * b)

/-- JavaScript division on extended numbers: infinity over infinity is NaN, a
finite value over an infinity is zero, an infinity over a finite value is an
infinity with the combined sign (zero counting as positive zero). -/
def JNum.div : JNum → JNum → JNum
  | .nan, _ => .nan
  | _, .nan => .nan
  | .pinf, .pinf => .nan
  | .pinf, .ninf => .nan
  | .ninf, .pinf => .nan
  | .ninf, .ninf => .nan
  | .pinf, .fin b => if 0 ≤ b then .pinf else .ninf
  | .ninf, .fin b => if 0 ≤ b then .ninf else .pinf
  | .fin _, .pinf => .fin 0
  | .fin _, .ninf => .fin 0
  | .fin a, .fin b => jsDivQ a b

/-- Rounding performed by Number(x.toFixed(5)) on a finite value: round to 5
decimal digits, a tie resolved to the larger candidate (the ECMAScript rule).
The separate printing rule for magnitudes at or above 10^21 changes nothing
at the 5-digit scale and is not modelled. -/
def round5 (q : ℚ) : ℚ := (⌊q * 100000 + 1 / 2⌋ : ℤ) / 100000

/-- Number(x.toFixed(5)): NaN and the infinities print and re-parse to
themselves, a finite value is rounded to 5 decimal digits. -/
def JNum.toFixed5 : JNum → JNum
  | .nan => .nan
  | .ninf => .ninf
  | .pinf => .pinf
  | .fin q => .fin (round5 q)

/-- Modelled from the spec: the type `MousePosition {x, y}` (module `types`,
outside the embedded sources), a pair of finite pointer coordinates. -/
@[ext]
structure MousePosition where
  x : ℚ
  y : ℚ
  deriving DecidableEq, Repr, Inhabited

/-- Rectangle attributes of a stroke (interface `FreeDrawRect`). The extremum
fields hold their Infinity sentinels as `none`: `minX`/`minY` are +Infinity
or finite, `maxX`/`maxY` are -Infinity or finite. In this module these fields
are only written by `initRect` (the sentinels) and `calculateRect` (finite
values), so no other non-finite value occurs in them. -/
@[ext]
structure FreeDrawRect where
  width : ℚ
  height : ℚ
  x : ℚ
  y : ℚ
  minX : Option ℚ
  maxX : Option ℚ
  minY : Option ℚ
  maxY : Option ℚ
  deriving DecidableEq, Repr

/-- Value installed by `initRect` and by the field initializer of
`FreeDraw.rect`: zero origin and size, extrema at their sentinels. -/
def initRectValue : FreeDrawRect :=
  { width := 0, height := 0, x := 0, y := 0,
    minX := none, maxX := none, minY := none, maxY := none }

/-- Function `calculateRect`: fold one position into the rectangle via the
min/max union step, then rebuild x, y, width, height from the extrema. The
source reads and writes `instance.rect`; the rectangle component is threaded
explicitly here. A comparison of a finite coordinate against the sentinel
(+Infinity for minX/minY, -Infinity for maxX/maxY, held as `none`) always
succeeds, exactly as in the source. -/
def calculateRect (r : FreeDrawRect) (p : MousePosition) : FreeDrawRect :=
  let minX : ℚ := match r.minX with
    | none => p.x
    | some m => if p.x < m then p.x else m
  let maxX : ℚ := match r.maxX with
    | none => p.x
    | some m => if m < p.x then p.x else m
  let minY : ℚ := match r.minY with
    | none => p.y
    | some m => if p.y < m then p.y else m
  let maxY : ℚ := match r.maxY with
    | none => p.y
    | some m => if m < p.y then p.y else m
  { minX := some minX, maxX := some maxX, minY := some minY, maxY := some maxY,
    x := minX, y := minY, width := maxX - minX, height := maxY - minY }

/-- Class `FreeDraw`: the mutable instance state. The base class
`CanvasElement` (module `element`, outside the embedded sources) contributes
only the opaque element-kind tag and the `layer` ordering tag; per the spec
the layer is opaque to this core and is kept as the field `layer`. -/
@[ext]
structure FreeDraw where
  positions : List MousePosition
  color : String
  maxWidth : ℚ
  minWidth : ℚ
  lineWidths : List JNum
  maxSpeed : ℚ
  minSpeed : ℚ
  lastMoveTime : ℚ
  lastLineWidth : JNum
  rect : FreeDrawRect
  layer : ℚ
  deriving DecidableEq, Repr

/-- Constructor of `FreeDraw`, together with the class field initializers
(maxSpeed = 10, minSpeed = 0.5, lastMoveTime = 0, the sentinel rect). -/
def FreeDraw.new (color : String) (width : ℚ) (layer : ℚ) : FreeDraw :=
  { positions := []
    color := color
    maxWidth := width
    minWidth := width / 2
    lineWidths := [.fin 0]
    maxSpeed := 10
    minSpeed := 1 / 2
    lastMoveTime := 0
    lastLineWidth := .fin width
    rect := initRectValue
    layer := layer }

/-- Function `initRect`: reset the instance rectangle to the sentinel value. -/
def initRect (s : FreeDraw) : FreeDraw := { s with rect := initRectValue }

/-- Method `_computedSpeed`: speed of the move from `start` to `endP`
(`end` in the source), as distance over the elapsed time since
`lastMoveTime`, rounded to 5 digits; updates `lastMoveTime` to the current
time. `getDistance` (module `common`) and the clock reading `Date.now()` are
passed in from outside. -/
def FreeDraw._computedSpeed (getDistance : MousePosition → MousePosition → ℚ)
    (s : FreeDraw) (start endP : MousePosition) (curTime : ℚ) :
    JNum × FreeDraw :=
  let moveDistance := getDistance start endP
  let moveTime := curTime - s.lastMoveTime
  let mouseSpeed := jsDivQ moveDistance moveTime
  (mouseSpeed.toFixed5, { s with lastMoveTime := curTime })

/-- Branch part of method `_computedLineWidth`: the raw (pre-smoothing) line
width chosen from the speed. -/
def FreeDraw.rawLineWidth (s : FreeDraw) (speed : JNum) : JNum :=
  if speed.geQ s.maxSpeed then .fin s.minWidth
  else if speed.leQ s.minSpeed then .fin s.maxWidth
  else JNum.sub (.fin s.maxWidth)
    (JNum.mul (JNum.div speed (.fin s.maxSpeed)) (.fin s.maxWidth))

/-- Method `_computedLineWidth`: the raw width from the speed branches
(`FreeDraw.rawLineWidth`), smoothed as one third raw plus two thirds of
`lastLineWidth`; the smoothed value is stored back into `lastLineWidth` and
returned. -/
def FreeDraw._computedLineWidth (s : FreeDraw) (speed : JNum) :
    JNum × FreeDraw :=
  let lineWidth := s.rawLineWidth speed
  let lineWidth2 := JNum.add (JNum.mul lineWidth (.fin (1 / 3)))
    (JNum.mul s.lastLineWidth (.fin (2 / 3)))
  (lineWidth2, { s with lastLineWidth := lineWidth2 })

/-- Method `addPosition`: push the position, fold it into the rectangle, and,
when there is more than one position, compute the speed from the previous and
the new last position and append the derived line width. -/
def FreeDraw.addPosition (getDistance : MousePosition → MousePosition → ℚ)
    (curTime : ℚ) (s : FreeDraw) (position : MousePosition) : FreeDraw :=
  let s1 : FreeDraw := { s with positions := s.positions ++ [position],
                                rect := calculateRect s.rect position }
  if 1 < s1.positions.length then
    let startP := s1.positions.getD (s1.positions.length - 2) default
    let endP := s1.positions.getD (s1.positions.length - 1) default
    let sp := s1._computedSpeed getDistance startP endP curTime
    let lw := sp.2._computedLineWidth sp.1
    { lw.2 with lineWidths := lw.2.lineWidths ++ [lw.1] }
  else s1

/-- Body of the forEach loops of `moveFreeDraw` and `resizeFreeDraw`: rewrite
each position with `f` and immediately fold the rewritten position into the
rectangle, in order. -/
def updateFold (f : MousePosition → MousePosition) :
    List MousePosition → FreeDrawRect → List MousePosition × FreeDrawRect
  | [], r => ([], r)
  | p :: ps, r =>
    let p1 := f p
    let pr := updateFold f ps (calculateRect r p1)
    (p1 :: pr.1, pr.2)

/-- Function `moveFreeDraw`: reset the rectangle, then shift every position by
the given distances, folding each shifted position into the rectangle. -/
def moveFreeDraw (s : FreeDraw) (xDistance yDistance : ℚ) : FreeDraw :=
  let s0 := initRect s
  let pr := updateFold
    (fun p => { p with x := p.x + xDistance, y := p.y + yDistance })
    s0.positions s0.rect
  { s0 with positions := pr.1, rect := pr.2 }

/-- Modelled from the spec: the resize-anchor enumeration `RESIZE_TYPE`
(module `constants`, outside the embedded sources) with its four corner
members; `OTHER` stands for any other string and selects the `default`
branch of the `switch` in `resizeFreeDraw`. -/
inductive ResizeType where
  | BOTTOM_RIGHT | BOTTOM_LEFT | TOP_LEFT | TOP_RIGHT | OTHER
  deriving DecidableEq, Repr

/-- Function `resizeFreeDraw`: refuse the resize when the current rectangle is
already at or below `RECT_MIN_SIZE` on an axis being shrunk; otherwise scale
every position about the origin (first reset-and-replay pass), compute the
anchor-correction offsets of the chosen corner against the target rectangle,
and subtract the offsets from every position (second reset-and-replay pass).
`RECT_MIN_SIZE` (module `constants`) is passed in from outside. -/
def resizeFreeDraw (RECT_MIN_SIZE : ℚ) (s : FreeDraw) (scaleX scaleY : ℚ)
    (rect : FreeDrawRect) (resizeType : ResizeType) : FreeDraw :=
  if (s.rect.width ≤ RECT_MIN_SIZE ∧ scaleX < 1) ∨
     (s.rect.height ≤ RECT_MIN_SIZE ∧ scaleY < 1) then
    s
  else
    let s1 := initRect s
    let pr1 := updateFold
      (fun p => { p with x := p.x * scaleX, y := p.y * scaleY })
      s1.positions s1.rect
    let s2 : FreeDraw := { s1 with positions := pr1.1, rect := pr1.2 }
    let newX := s2.rect.x
    let newY := s2.rect.y
    let newWidth := s2.rect.width
    let newHeight := s2.rect.height
    let offset : ℚ × ℚ :=
      match resizeType with
      | .BOTTOM_RIGHT => (newX - rect.x, newY - rect.y)
      | .BOTTOM_LEFT => (newX + newWidth - (rect.x + rect.width), newY - rect.y)
      | .TOP_LEFT => (newX + newWidth - (rect.x + rect.width),
                      newY + newHeight - (rect.y + rect.height))
      | .TOP_RIGHT => (newX - rect.x, newY + newHeight - (rect.y + rect.height))
      | .OTHER => (0, 0)
    let s3 := initRect s2
    let pr2 := updateFold
      (fun p => { p with x := p.x - offset.1, y := p.y - offset.2 })
      s3.positions s3.rect
    { s3 with positions := pr2.1, rect := pr2.2 }

/-- Minimum of a nonempty list of rationals (0 on the empty list); used to
state elementwise extrema over the recorded positions. -/
def listMin : List ℚ → ℚ
  | [] => 0
  | q :: qs => qs.foldl min q

/-- Maximum of a nonempty list of rationals (0 on the empty list). -/
def listMax : List ℚ → ℚ
  | [] => 0
  | q :: qs => qs.foldl max q

/-- Full reset-and-replay recomputation of the bounding box: the sentinel
rectangle of `initRect` with every current position folded in by
`calculateRect`, exactly the pass performed by `moveFreeDraw` and
`resizeFreeDraw`. -/
def fullRect (s : FreeDraw) : FreeDrawRect :=
  s.positions.foldl calculateRect initRectValue

/-- Length relation between `lineWidths` and `positions` maintained by the
constructor and `addPosition`: before the first sample the placeholder is the
only width entry, afterwards the sequences have equal length. -/
def WidthsInv (s : FreeDraw) : Prop :=
  (s.positions = [] ∧ s.lineWidths.length = 1) ∨
  (s.positions ≠ [] ∧ s.lineWidths.length = s.positions.length)

/-- Replay of a sequence of `addPosition` calls, each with its own wall-clock
time, against one fixed distance function. -/
def applyCalls (getDistance : MousePosition → MousePosition → ℚ)
    (calls : List (ℚ × MousePosition)) (s : FreeDraw) : FreeDraw :=
  calls.foldl (fun acc c => acc.addPosition getDistance c.1 c.2) s

/-- Sample stroke used to instantiate hypotheses on concrete data. -/
def sampleStroke : FreeDraw := FreeDraw.new "#000000" 10 0

/-- Zero distance function; on inputs where every recorded position is the
same point it agrees with the Euclidean distance. -/
def zeroDist : MousePosition → MousePosition → ℚ := fun _ _ => 0

/-- Sample stroke with two captured positions, built through `addPosition`. -/
def sampleStroke2 : FreeDraw :=
  (sampleStroke.addPosition zeroDist 5 ⟨0, 0⟩).addPosition zeroDist 6 ⟨3, 1⟩

lemma if_lt_eq_min (a b : ℚ) : (if b < a then b else a) = min a b := by
  rcases lt_or_le b a with h | h
  · rw [if_pos h, min_eq_right h.le]
  · rw [if_neg (not_lt.mpr h), min_eq_left h]

lemma if_lt_eq_max (a b : ℚ) : (if a < b then b else a) = max a b := by
  rcases lt_or_le a b with h | h
  · rw [if_pos h, max_eq_right h.le]
  · rw [if_neg (not_lt.mpr h), max_eq_left h]

/-- Rectangle carrying exactly the four extrema m, M, my, My with the derived
origin and size fields. -/
def RectGood (r : FreeDrawRect) (m M my My : ℚ) : Prop :=
  r.minX = some m ∧ r.maxX = some M ∧ r.minY = some my ∧ r.maxY = some My ∧
  r.x = m ∧ r.y = my ∧ r.width = M - m ∧ r.height = My - my

lemma calculateRect_good {r : FreeDrawRect} {m M my My : ℚ}
    (h : RectGood r m M my My) (p : MousePosition) :
    RectGood (calculateRect r p)
      (min m p.x) (max M p.x) (min my p.y) (max My p.y) := by
  obtain ⟨h1, h2, h3, h4, _, _, _, _⟩ := h
  unfold calculateRect RectGood
  rw [h1, h2, h3, h4]
  simp [if_lt_eq_min, if_lt_eq_max]

lemma calculateRect_init (p : MousePosition) :
    RectGood (calculateRect initRectValue p) p.x p.x p.y p.y := by
  unfold calculateRect initRectValue RectGood
  exact ⟨rfl, rfl, rfl, rfl, rfl, rfl, rfl, rfl⟩

lemma foldl_calculateRect_good {r : FreeDrawRect} {m M my My : ℚ}
    (ps : List MousePosition) (h : RectGood r m M my My) :
    RectGood (ps.foldl calculateRect r)
      (ps.foldl (fun a p => min a p.x) m)
      (ps.foldl (fun a p => max a p.x) M)
      (ps.foldl (fun a p => min a p.y) my)
      (ps.foldl (fun a p => max a p.y) My) := by
  induction ps generalizing r m M my My with
  | nil => exact h
  | cons p ps ih => exact ih (calculateRect_good h p)

lemma updateFold_eq (f : MousePosition → MousePosition)
    (ps : List MousePosition) (r : FreeDrawRect) :
    updateFold f ps r = (ps.map f, (ps.map f).foldl calculateRect r) := by
  induction ps generalizing r with
  | nil => rfl
  | cons p ps ih => simp [updateFold, ih]

lemma addPosition_positions (d : MousePosition → MousePosition → ℚ) (t : ℚ)
    (s : FreeDraw) (p : MousePosition) :
    (s.addPosition d t p).positions = s.positions ++ [p] := by
  cases hp : s.positions with
  | nil => simp [FreeDraw.addPosition, hp]
  | cons q qs =>
    simp [FreeDraw.addPosition, hp, FreeDraw._computedSpeed,
      FreeDraw._computedLineWidth]

lemma addPosition_rect (d : MousePosition → MousePosition → ℚ) (t : ℚ)
    (s : FreeDraw) (p : MousePosition) :
    (s.addPosition d t p).rect = calculateRect s.rect p := by
  cases hp : s.positions with
  | nil => simp [FreeDraw.addPosition, hp]
  | cons q qs =>
    simp [FreeDraw.addPosition, hp, FreeDraw._computedSpeed,
      FreeDraw._computedLineWidth]

lemma addPosition_lineWidths_length (d : MousePosition → MousePosition → ℚ)
    (t : ℚ) (s : FreeDraw) (p : MousePosition) :
    (s.addPosition d t p).lineWidths.length =
      if s.positions = [] then s.lineWidths.length
      else s.lineWidths.length + 1 := by
  cases hp : s.positions with
  | nil =>
    simp [FreeDraw.addPosition, hp]
  | cons q qs =>
    simp [FreeDraw.addPosition, hp, FreeDraw._computedSpeed,
      FreeDraw._computedLineWidth]

lemma addPosition_lastMoveTime (d : MousePosition → MousePosition → ℚ)
    (t : ℚ) (s : FreeDraw) (p : MousePosition) :
    (s.addPosition d t p).lastMoveTime =
      if s.positions = [] then s.lastMoveTime else t := by
  cases hp : s.positions with
  | nil =>
    simp [FreeDraw.addPosition, hp]
  | cons q qs =>
    simp [FreeDraw.addPosition, hp, FreeDraw._computedSpeed,
      FreeDraw._computedLineWidth]

lemma computedLineWidth_eq (s : FreeDraw) (sp : JNum) :
    s._computedLineWidth sp =
      (JNum.add (JNum.mul (s.rawLineWidth sp) (.fin (1 / 3)))
         (JNum.mul s.lastLineWidth (.fin (2 / 3))),
       { s with lastLineWidth :=
           (JNum.add (JNum.mul (s.rawLineWidth sp) (.fin (1 / 3)))
             (JNum.mul s.lastLineWidth (.fin (2 / 3)))) }) := rfl

lemma rawLineWidth_fast (s : FreeDraw) (q : ℚ) (hms : s.maxSpeed = 10)
    (h : 10 ≤ q) : s.rawLineWidth (.fin q) = .fin s.minWidth := by
  unfold FreeDraw.rawLineWidth
  have hc : JNum.geQ (.fin q) s.maxSpeed = true := by
    rw [hms]
    exact decide_eq_true h
  rw [hc]
  simp

lemma rawLineWidth_slow (s : FreeDraw) (q : ℚ) (hms : s.maxSpeed = 10)
    (hns : s.minSpeed = 1 / 2) (h : q ≤ 1 / 2) :
    s.rawLineWidth (.fin q) = .fin s.maxWidth := by
  unfold FreeDraw.rawLineWidth
  have hc1 : JNum.geQ (.fin q) s.maxSpeed = false := by
    rw [hms]
    exact decide_eq_false (not_le.mpr (lt_of_le_of_lt h (by norm_num)))
  have hc2 : JNum.leQ (.fin q) s.minSpeed = true := by
    rw [hns]
    exact decide_eq_true h
  rw [hc1, hc2]
  simp

lemma rawLineWidth_interp (s : FreeDraw) (q : ℚ) (hms : s.maxSpeed = 10)
    (hns : s.minSpeed = 1 / 2) (h1 : 1 / 2 < q) (h2 : q < 10) :
    s.rawLineWidth (.fin q) = .fin (s.maxWidth - q / 10 * s.maxWidth) := by
  unfold FreeDraw.rawLineWidth
  have hc1 : JNum.geQ (.fin q) s.maxSpeed = false := by
    rw [hms]
    exact decide_eq_false (not_le.mpr h2)
  have hc2 : JNum.leQ (.fin q) s.minSpeed = false := by
    rw [hns]
    exact decide_eq_false (not_le.mpr h1)
  rw [hc1, hc2, hms]
  norm_num [JNum.div, jsDivQ, JNum.mul, JNum.sub]

lemma widthsInv_new (color : String) (W layer : ℚ) :
    WidthsInv (FreeDraw.new color W layer) :=
  Or.inl ⟨rfl, rfl⟩

lemma widthsInv_addPosition (d : MousePosition → MousePosition → ℚ) (t : ℚ)
    (s : FreeDraw) (p : MousePosition) (h : WidthsInv s) :
    WidthsInv (s.addPosition d t p) := by
  rcases h with ⟨hp, hl⟩ | ⟨hp, hl⟩
  · refine Or.inr ⟨?_, ?_⟩
    · rw [addPosition_positions]
      simp
    · rw [addPosition_lineWidths_length, addPosition_positions, if_pos hp, hp]
      simpa using hl
  · refine Or.inr ⟨?_, ?_⟩
    · rw [addPosition_positions]
      simp
    · rw [addPosition_lineWidths_length, addPosition_positions, if_neg hp]
      simp [hl]

lemma widthsInv_applyCalls (d : MousePosition → MousePosition → ℚ)
    (calls : List (ℚ × MousePosition)) (s : FreeDraw) (h : WidthsInv s) :
    WidthsInv (applyCalls d calls s) := by
  induction calls generalizing s with
  | nil => exact h
  | cons c cs ih => exact ih _ (widthsInv_addPosition d c.1 s c.2 h)

/-- Claim C4: for every stroke and every sequence of addPosition calls
starting from construction, immediately after each addPosition call the
widths sequence has exactly the length of the positions sequence. -/
theorem claim_c4_widths_positions_aligned
    (d : MousePosition → MousePosition → ℚ) (color : String) (W layer : ℚ)
    (calls : List (ℚ × MousePosition)) (t : ℚ) (p : MousePosition) :
    ((applyCalls d calls (FreeDraw.new color W layer)).addPosition d t p
      ).lineWidths.length =
    ((applyCalls d calls (FreeDraw.new color W layer)).addPosition d t p
      ).positions.length := by
  have h := widthsInv_addPosition d t _ p
    (widthsInv_applyCalls d calls _ (widthsInv_new color W layer))
  rcases h with ⟨hp, _⟩ | ⟨_, hl⟩
  · rw [addPosition_positions] at hp
    simp at hp
  · exact hl

/-- Claim C10: a freshly constructed stroke has lineWidths = [0] and no
positions, so the widths sequence is one entry longer than the positions
sequence at construction, and the two lengths first agree right after the
first addPosition call (which appends a position but no width). -/
theorem claim_c10_construction_placeholder (color : String) (W layer : ℚ) :
    (FreeDraw.new color W layer).lineWidths = [.fin 0] ∧
    (FreeDraw.new color W layer).positions = [] ∧
    (FreeDraw.new color W layer).lineWidths.length =
      (FreeDraw.new color W layer).positions.length + 1 ∧
    ∀ (d : MousePosition → MousePosition → ℚ) (t : ℚ) (p : MousePosition),
      ((FreeDraw.new color W layer).addPosition d t p).lineWidths.length =
      ((FreeDraw.new color W layer).addPosition d t p).positions.length := by
  refine ⟨rfl, rfl, rfl, ?_⟩
  intro d t p
  rw [addPosition_lineWidths_length, addPosition_positions]
  simp [FreeDraw.new]

/-- Claim C8 counterexample: the very first addPosition call, recorded at
wall-clock time 100, leaves lastMoveTime at its construction value 0 instead
of advancing it to the timestamp of the processed sample. -/
theorem claim_c8_counterexample :
    ((FreeDraw.new "#000000" 10 0).addPosition zeroDist 100 ⟨1, 1⟩
      ).lastMoveTime = 0 ∧ (0 : ℚ) ≠ 100 := by
  constructor
  · with_unfolding_all decide
  · with_unfolding_all decide

/-- Claim C8 (amended): an addPosition call advances lastMoveTime to the
wall-clock time of the sample exactly when the stroke already holds at least
one position; the very first call leaves lastMoveTime at its previous value
(0 after construction), because the speed computation that writes it only
runs from the second sample on. -/
theorem claim_c8_lastMoveTime_advance
    (d : MousePosition → MousePosition → ℚ) (t : ℚ) (s : FreeDraw)
    (p : MousePosition) :
    (s.addPosition d t p).lastMoveTime =
      if s.positions = [] then s.lastMoveTime else t :=
  addPosition_lastMoveTime d t s p

/-- Claim C1: at the failing input (three samples at the same point recorded
at the same wall-clock time, so the third sample sees zero distance over zero
elapsed time) the indeterminate 0/0 speed is NaN, both guard comparisons on
NaN are false, the interpolation branch runs instead of the fast branch, and
the resulting NaN is appended to lineWidths: an invalid value does enter the
widths sequence, and the appended entry differs from every finite width, in
particular from minWidth = 10/2. -/
theorem claim_c1_nan_propagates :
    ((((FreeDraw.new "#000000" 10 0).addPosition zeroDist 5 ⟨1, 2⟩
        ).addPosition zeroDist 5 ⟨1, 2⟩).addPosition zeroDist 5 ⟨1, 2⟩
      ).lineWidths = [.fin 0, .fin 10, .nan] ∧
    (FreeDraw.new "#000000" 10 0).rawLineWidth .nan ≠
      .fin ((10 : ℚ) / 2) := by
  constructor
  · with_unfolding_all decide
  · with_unfolding_all decide

/-- Claim C7: when the current rectangle width is at most the minimum-size
threshold and scaleX < 1, or the current height is at most the threshold and
scaleY < 1, resizeFreeDraw returns the stroke completely unchanged. -/
theorem claim_c7_resize_guard_noop (RECT_MIN_SIZE : ℚ) (s : FreeDraw)
    (scaleX scaleY : ℚ) (rect : FreeDrawRect) (rt : ResizeType)
    (h : (s.rect.width ≤ RECT_MIN_SIZE ∧ scaleX < 1) ∨
         (s.rect.height ≤ RECT_MIN_SIZE ∧ scaleY < 1)) :
    resizeFreeDraw RECT_MIN_SIZE s scaleX scaleY rect rt = s := by
  unfold resizeFreeDraw
  rw [if_pos h]

/-- Claim C7 witness: the sample stroke has rectangle width 3, at most the
threshold 5, and scaling it down by one half is refused without any state
change. -/
theorem claim_c7_witness :
    ((sampleStroke2.rect.width ≤ (5 : ℚ) ∧ (1 : ℚ) / 2 < 1) ∨
     (sampleStroke2.rect.height ≤ (5 : ℚ) ∧ (2 : ℚ) < 1)) ∧
    resizeFreeDraw 5 sampleStroke2 (1 / 2) 2 initRectValue .BOTTOM_RIGHT
      = sampleStroke2 :=
  ⟨Or.inl ⟨by with_unfolding_all decide, by with_unfolding_all decide⟩,
   claim_c7_resize_guard_noop 5 sampleStroke2 (1 / 2) 2 initRectValue
     .BOTTOM_RIGHT (Or.inl ⟨by with_unfolding_all decide, by with_unfolding_all decide⟩)⟩

/-- Claim C2: for a stroke with the constructor constants (minWidth equal to
maxWidth/2, maxSpeed 10, minSpeed 0.5) and finite smoothing accumulator l, a
finite speed q at or above 10 gives raw width maxWidth/2, at or below 0.5
gives maxWidth, and strictly in between gives maxWidth - (q/10)*maxWidth; the
value produced by _computedLineWidth, which addPosition appends to widths, is
raw*(1/3) + l*(2/3), and that same value is stored as the new lastLineWidth. -/
theorem claim_c2_width_formula (s : FreeDraw) (l q : ℚ)
    (hms : s.maxSpeed = 10) (hns : s.minSpeed = 1 / 2)
    (hmin : s.minWidth = s.maxWidth / 2) (hl : s.lastLineWidth = .fin l) :
    (10 ≤ q →
       s.rawLineWidth (.fin q) = .fin (s.maxWidth / 2) ∧
       (s._computedLineWidth (.fin q)).1 =
         .fin (s.maxWidth / 2 * (1 / 3) + l * (2 / 3))) ∧
    (q ≤ 1 / 2 →
       s.rawLineWidth (.fin q) = .fin s.maxWidth ∧
       (s._computedLineWidth (.fin q)).1 =
         .fin (s.maxWidth * (1 / 3) + l * (2 / 3))) ∧
    (1 / 2 < q → q < 10 →
       s.rawLineWidth (.fin q) = .fin (s.maxWidth - q / 10 * s.maxWidth) ∧
       (s._computedLineWidth (.fin q)).1 =
         .fin ((s.maxWidth - q / 10 * s.maxWidth) * (1 / 3) + l * (2 / 3))) ∧
    (s._computedLineWidth (.fin q)).2 =
      { s with lastLineWidth := (s._computedLineWidth (.fin q)).1 } := by
  refine ⟨?_, ?_, ?_, ?_⟩
  · intro h
    have hraw := rawLineWidth_fast s q hms h
    rw [hmin] at hraw
    refine ⟨hraw, ?_⟩
    rw [computedLineWidth_eq, hraw, hl]
    rfl
  · intro h
    have hraw := rawLineWidth_slow s q hms hns h
    refine ⟨hraw, ?_⟩
    rw [computedLineWidth_eq, hraw, hl]
    rfl
  · intro h1 h2
    have hraw := rawLineWidth_interp s q hms hns h1 h2
    refine ⟨hraw, ?_⟩
    rw [computedLineWidth_eq, hraw, hl]
    rfl
  · rw [computedLineWidth_eq]

/-- Claim C2 witness: on the freshly constructed sample stroke (maxWidth 10,
lastLineWidth 10) the fast case at speed 20 applies: raw width maxWidth/2 and
smoothed value maxWidth/2 times one third plus 10 times two thirds. -/
theorem claim_c2_witness :
    sampleStroke.rawLineWidth (.fin 20) = .fin (sampleStroke.maxWidth / 2) ∧
    (sampleStroke._computedLineWidth (.fin 20)).1 =
      .fin (sampleStroke.maxWidth / 2 * (1 / 3) + 10 * (2 / 3)) :=
  (claim_c2_width_formula sampleStroke 10 20 rfl rfl rfl rfl).1 (by norm_num)

/-- Claim C9: with the constructor constants and positive maxWidth, the speed
9 lies strictly between minSpeed and maxSpeed yet its raw pre-smoothing width
maxWidth - (9/10)*maxWidth is strictly below minWidth = maxWidth/2, so the
interpolation branch is not bounded below by minWidth; near the top of the
range (speed 999/100) the raw width is maxWidth/1000 while at speed 10 it is
minWidth, exhibiting the jump at maxSpeed. -/
theorem claim_c9_interpolation_dips (s : FreeDraw)
    (hms : s.maxSpeed = 10) (hns : s.minSpeed = 1 / 2)
    (hmin : s.minWidth = s.maxWidth / 2) (hW : 0 < s.maxWidth) :
    s.minSpeed < 9 ∧ (9 : ℚ) < s.maxSpeed ∧
    s.rawLineWidth (.fin 9) = .fin (s.maxWidth - 9 / 10 * s.maxWidth) ∧
    s.maxWidth - 9 / 10 * s.maxWidth < s.minWidth ∧
    s.rawLineWidth (.fin (999 / 100)) = .fin (s.maxWidth / 1000) ∧
    s.rawLineWidth (.fin 10) = .fin s.minWidth := by
  refine ⟨by rw [hns]; norm_num, by rw [hms]; norm_num,
    rawLineWidth_interp s 9 hms hns (by norm_num) (by norm_num), ?_, ?_, ?_⟩
  · rw [hmin]
    linarith
  · rw [rawLineWidth_interp s (999 / 100) hms hns (by norm_num) (by norm_num)]
    congr 1
    ring
  · exact rawLineWidth_fast s 10 hms le_rfl

/-- Claim C9 witness: the dip below minWidth and the jump at maxSpeed on the
concrete sample stroke with maxWidth 10. -/
theorem claim_c9_witness :
    sampleStroke.minSpeed < 9 ∧ (9 : ℚ) < sampleStroke.maxSpeed ∧
    sampleStroke.rawLineWidth (.fin 9) =
      .fin (sampleStroke.maxWidth - 9 / 10 * sampleStroke.maxWidth) ∧
    sampleStroke.maxWidth - 9 / 10 * sampleStroke.maxWidth <
      sampleStroke.minWidth ∧
    sampleStroke.rawLineWidth (.fin (999 / 100)) =
      .fin (sampleStroke.maxWidth / 1000) ∧
    sampleStroke.rawLineWidth (.fin 10) = .fin sampleStroke.minWidth :=
  claim_c9_interpolation_dips sampleStroke rfl rfl rfl
    (by norm_num [sampleStroke, FreeDraw.new])

/-- Claim C3: for every stroke with at least one position (after any sequence
of mutations), the full reset-and-replay recomputation (the sentinel
rectangle of initRect with every current position folded in by calculateRect)
produces exactly the elementwise minima and maxima of the current positions
in minX/maxX/minY/maxY, with x = minX, y = minY, width = maxX - minX and
height = maxY - minY. -/
theorem claim_c3_full_recompute_box (s : FreeDraw) (hne : s.positions ≠ []) :
    (fullRect s).minX = some (listMin (s.positions.map MousePosition.x)) ∧
    (fullRect s).maxX = some (listMax (s.positions.map MousePosition.x)) ∧
    (fullRect s).minY = some (listMin (s.positions.map MousePosition.y)) ∧
    (fullRect s).maxY = some (listMax (s.positions.map MousePosition.y)) ∧
    (fullRect s).x = listMin (s.positions.map MousePosition.x) ∧
    (fullRect s).y = listMin (s.positions.map MousePosition.y) ∧
    (fullRect s).width = listMax (s.positions.map MousePosition.x) -
      listMin (s.positions.map MousePosition.x) ∧
    (fullRect s).height = listMax (s.positions.map MousePosition.y) -
      listMin (s.positions.map MousePosition.y) := by
  obtain ⟨p, rest, hps⟩ := List.exists_cons_of_ne_nil hne
  obtain ⟨g1, g2, g3, g4, g5, g6, g7, g8⟩ :=
    foldl_calculateRect_good rest (calculateRect_init p)
  simp only [fullRect, hps, List.foldl_cons, List.map_cons, listMin, listMax,
    List.foldl_map]
  exact ⟨g1, g2, g3, g4, g5, g6, g7, g8⟩

/-- Claim C3 witness: the full recomputation on the concrete two-position
sample stroke yields the elementwise extrema and the derived fields. -/
theorem claim_c3_witness :
    sampleStroke2.positions ≠ [] ∧
    ((fullRect sampleStroke2).minX =
       some (listMin (sampleStroke2.positions.map MousePosition.x)) ∧
     (fullRect sampleStroke2).maxX =
       some (listMax (sampleStroke2.positions.map MousePosition.x)) ∧
     (fullRect sampleStroke2).minY =
       some (listMin (sampleStroke2.positions.map MousePosition.y)) ∧
     (fullRect sampleStroke2).maxY =
       some (listMax (sampleStroke2.positions.map MousePosition.y)) ∧
     (fullRect sampleStroke2).x =
       listMin (sampleStroke2.positions.map MousePosition.x) ∧
     (fullRect sampleStroke2).y =
       listMin (sampleStroke2.positions.map MousePosition.y) ∧
     (fullRect sampleStroke2).width =
       listMax (sampleStroke2.positions.map MousePosition.x) -
         listMin (sampleStroke2.positions.map MousePosition.x) ∧
     (fullRect sampleStroke2).height =
       listMax (sampleStroke2.positions.map MousePosition.y) -
         listMin (sampleStroke2.positions.map MousePosition.y)) :=
  ⟨by with_unfolding_all decide,
   claim_c3_full_recompute_box sampleStroke2 (by with_unfolding_all decide)⟩

lemma moveFreeDraw_eq (s : FreeDraw) (dx dy : ℚ) :
    moveFreeDraw s dx dy =
      { s with
        positions := s.positions.map
          (fun p => { p with x := p.x + dx, y := p.y + dy }),
        rect := (s.positions.map
          (fun p => { p with x := p.x + dx, y := p.y + dy })).foldl
          calculateRect initRectValue } := by
  simp only [moveFreeDraw, initRect, updateFold_eq]

lemma map_shift_neg (ps : List MousePosition) (dx dy : ℚ) :
    (ps.map (fun p => ({ p with x := p.x + dx, y := p.y + dy } :
        MousePosition))).map
      (fun p => ({ p with x := p.x + -dx, y := p.y + -dy } :
        MousePosition)) = ps := by
  induction ps with
  | nil => rfl
  | cons p ps ih =>
    simp only [List.map_cons, List.cons.injEq]
    refine ⟨?_, ih⟩
    ext <;> simp

/-- Claim C6: translating a stroke whose rectangle is the canonical box of
its positions by (dx, dy) and then by (-dx, -dy) restores the entire stroke:
every position and the bounding box return to their original values, exactly,
in the exact rational arithmetic of the model. -/
theorem claim_c6_translate_roundtrip (s : FreeDraw) (dx dy : ℚ)
    (hrect : s.rect = fullRect s) :
    moveFreeDraw (moveFreeDraw s dx dy) (-dx) (-dy) = s := by
  simp only [fullRect] at hrect
  rw [moveFreeDraw_eq, moveFreeDraw_eq]
  dsimp only
  rw [map_shift_neg, ← hrect]

/-- Claim C6 witness: the translation round trip on the concrete sample
stroke with offsets (7, -2). -/
theorem claim_c6_witness :
    moveFreeDraw (moveFreeDraw sampleStroke2 7 (-2)) (-7) (- -2) =
      sampleStroke2 :=
  claim_c6_translate_roundtrip sampleStroke2 7 (-2)
    (by with_unfolding_all decide)

lemma map_scale_one (ps : List MousePosition) :
    ps.map (fun p => ({ p with x := p.x * 1, y := p.y * 1 } :
      MousePosition)) = ps := by
  induction ps with
  | nil => rfl
  | cons p ps ih =>
    simp only [List.map_cons, List.cons.injEq]
    refine ⟨?_, ih⟩
    ext <;> simp

lemma map_sub_zero (ps : List MousePosition) :
    ps.map (fun p => ({ p with x := p.x - 0, y := p.y - 0 } :
      MousePosition)) = ps := by
  induction ps with
  | nil => rfl
  | cons p ps ih =>
    simp only [List.map_cons, List.cons.injEq]
    refine ⟨?_, ih⟩
    ext <;> simp

/-- Claim C5: resizing with scale factors 1, the stroke's own current
bounding box as the target rectangle, and any anchor corner leaves a stroke
whose rectangle is the canonical box of its positions (and whose box is above
the minimum-size threshold on both axes) completely unchanged: every position
and the bounding box keep their values. -/
theorem claim_c5_resize_identity (RECT_MIN_SIZE : ℚ) (s : FreeDraw)
    (rt : ResizeType) (hrect : s.rect = fullRect s)
    (hw : RECT_MIN_SIZE < s.rect.width) (hh : RECT_MIN_SIZE < s.rect.height) :
    resizeFreeDraw RECT_MIN_SIZE s 1 1 s.rect rt = s := by
  have hfold : s.positions.foldl calculateRect initRectValue = s.rect := by
    rw [hrect]
    rfl
  unfold resizeFreeDraw
  rw [if_neg (by rintro (⟨-, hlt⟩ | ⟨-, hlt⟩) <;> exact lt_irrefl 1 hlt)]
  simp only [initRect, updateFold_eq]
  rw [map_scale_one, hfold]
  cases rt <;> simp only [sub_self, map_sub_zero, hfold]

/-- Claim C5 witness: the identity resize on the concrete sample stroke
(box 3 by 1, threshold one half, anchor top-left). -/
theorem claim_c5_witness :
    (sampleStroke2.rect = fullRect sampleStroke2 ∧
     (1 : ℚ) / 2 < sampleStroke2.rect.width ∧
     (1 : ℚ) / 2 < sampleStroke2.rect.height) ∧
    resizeFreeDraw ((1 : ℚ) / 2) sampleStroke2 1 1 sampleStroke2.rect
      .TOP_LEFT = sampleStroke2 :=
  ⟨⟨by with_unfolding_all decide, by with_unfolding_all decide,
    by with_unfolding_all decide⟩,
   claim_c5_resize_identity ((1 : ℚ) / 2) sampleStroke2 .TOP_LEFT
     (by with_unfolding_all decide) (by with_unfolding_all decide)
     (by with_unfolding_all decide)⟩
